import Mathlib

/-!
Verification development for the METcalcpy aggregation-and-resampling engine.

This file gives a shallow embedding of the relevant parts of
`metcalcpy/agg_stat.py`, `metcalcpy/util/statistics.py` and
`metcalcpy/event_equalize.py`, and proves or refutes a list of claims about
them.  Numeric values are embedded as exact rationals together with an
explicit NaN constructor; Python exceptions are embedded as an `Except`
error type; the in-place mutation performed by `event_equalize` on its
argument data frame is embedded as explicit state passing (the function
returns both the post-state of its argument and the filtered frame).
-/

namespace Met

deriving instance DecidableEq for Except

/-- Splitting a string at every occurrence of a separator character, the
embedding of Python's `str.split(sep)` for the one-character separators
used by the source (`' '` and `','`); `"".split(sep)` gives `[""]`. -/
def splitCharAux (c : Char) : List Char → List Char → List String
  | [], acc => [String.mk acc.reverse]
  | x :: xs, acc =>
    if x = c then String.mk acc.reverse :: splitCharAux c xs []
    else splitCharAux c xs (x :: acc)

/-- Python `s.split(c)` for a one-character separator. -/
def splitChar (c : Char) (s : String) : List String :=
  splitCharAux c s.data []

/-- Python errors that the embedded code can raise. -/
inductive PyErr where
  | keyError : String → PyErr
  | indexError : String → PyErr
  | valueError : String → PyErr
  | attributeError : String → PyErr
  | nameError : String → PyErr
deriving DecidableEq

/-- A cell value of a data frame / numpy object array: a string, a finite
float (embedded as an exact rational), or NaN. -/
inductive Val where
  | str : String → Val
  | num : ℚ → Val
  | nan : Val
deriving DecidableEq

/-- A Python value that can sit in the parameters dictionary: a plain string
or a list of strings (`params['list_stat']` is a list of statistic names). -/
inductive PyObj where
  | str : String → PyObj
  | listv : List String → PyObj
deriving DecidableEq

/-- Python `==` between two such values: a list never equals a string. -/
def pyEq : PyObj → PyObj → Bool
  | .str a, .str b => a == b
  | .listv a, .listv b => a == b
  | _, _ => false

/-- Python `x in l` for a list `l` of strings: membership by `pyEq`. -/
def pyMem (v : PyObj) (l : List String) : Bool :=
  l.any (fun s => pyEq v (.str s))

/-- The first index of `c` in `cols` (`np.where(columns == c)[0]` keeps the
first hit), `none` when the name is absent. -/
def firstIdx (cols : List String) (c : String) : Option Nat :=
  match cols with
  | [] => none
  | x :: xs => if x = c then some 0 else (firstIdx xs c).map (· + 1)

/-- Cartesian product of a list of value lists, in `itertools.product`
order (the first list varies slowest). -/
def listProduct : List (List String) → List (List String)
  | [] => [[]]
  | l :: ls => l.flatMap (fun x => (listProduct ls).map (fun t => x :: t))

/-- Modelled from the spec: `round_half_up` lives in `metcalcpy/util/utils.py`,
which is not under `src/`; per the spec, statistic results are "rounded to 5
decimals", half up: `floor(x * 10^d + 1/2) / 10^d`. -/
def roundHalfUp (x : ℚ) (decimals : ℕ) : ℚ :=
  ((Int.floor (x * (10 : ℚ) ^ decimals + 1 / 2) : ℤ) : ℚ) / (10 : ℚ) ^ decimals

/-! ### statistics.py -/

/-- `np.array(column, dtype=np.float64)` on one cell: a number converts to
itself, NaN stays NaN (inner `none`); a string cell either converts or
raises `ValueError` in the source — the claims never feed strings into the
numeric aggregate columns, so a string is mapped to the outer `none`
(conversion failure) here. -/
def floatOfVal : Val → Option (Option ℚ)
  | .num q => some (some q)
  | .nan => some none
  | .str _ => none

/-- The column slice `input_data[:, j]`; `none` when a row is too short
(IndexError). -/
def sliceColumn : List (List Val) → Nat → Option (List Val)
  | [], _ => some []
  | r :: rs, j =>
    match r.get? j, sliceColumn rs j with
    | some v, some vs => some (v :: vs)
    | _, _ => none

/-- `np.array(colvals, dtype=np.float64)` over a whole column slice. -/
def convColumn : List Val → Option (List (Option ℚ))
  | [] => some []
  | v :: vs =>
    match floatOfVal v, convColumn vs with
    | some f, some fs => some (f :: fs)
    | _, _ => none

/-- `sum_column_data_by_name` (statistics.py:2302): find the first index of
`column_name`; `None` when the column is missing, when the column slice is
ragged (IndexError is caught and turned into `None`), when the converted
column contains a NaN, or when summation fails. -/
def sumColumnDataByName (input_data : List (List Val)) (columns : List String)
    (column_name : String) : Option ℚ :=
  match firstIdx columns column_name with
  | none => none
  | some j =>
    match sliceColumn input_data j with
    | none => none
    | some colvals =>
      match convColumn colvals with
      | none => none
      | some floats =>
        if floats.any (fun f => f.isNone) then none
        else some ((floats.map (fun f => f.getD 0)).sum)

/-- Partial sums for `calculate_baser`, which sums the raw column slices with
the Python builtin `sum` instead of `sum_column_data_by_name`: a quiet NaN
propagates, adding a string raises `TypeError` (constructor `tErr`, caught by
the function's `except` clause). -/
inductive AV where
  | q : ℚ → AV
  | nan : AV
  | tErr : AV
deriving DecidableEq

/-- One step of the builtin `sum`: accumulator plus one raw cell. -/
def avAddVal : AV → Val → AV
  | .tErr, _ => .tErr
  | _, .str _ => .tErr
  | .nan, _ => .nan
  | .q _, .nan => .nan
  | .q x, .num y => .q (x + y)

/-- `sum(input_data[:, j])` over the raw (unconverted) column `j`. -/
def rawColSum (input_data : List (List Val)) (j : Nat) : AV :=
  input_data.foldl (fun a r => avAddVal a (r.getD j Val.nan)) (.q 0)

/-- Adding two raw column sums. -/
def avAdd : AV → AV → AV
  | .tErr, _ => .tErr
  | _, .tErr => .tErr
  | .nan, _ => .nan
  | _, .nan => .nan
  | .q a, .q b => .q (a + b)

/-- `calculate_baser` (statistics.py:18): `(sum fy_oy + sum fn_oy) / sum total`
over the raw columns, rounded to 5 decimals.  A missing column raises
`IndexError` (`np.where(...)[0][0]`), which the `except (TypeError,
ZeroDivisionError, Warning)` clause does not catch; a division by zero is
caught and yields `None`; a NaN reaches `round_half_up`, whose
`math.floor` raises `ValueError` — also uncaught. -/
def calculate_baser (input_data : List (List Val)) (columns_names : List String) :
    Except PyErr (Option ℚ) :=
  match firstIdx columns_names "fy_oy" with
  | none => .error (.indexError "fy_oy")
  | some jy =>
  match firstIdx columns_names "fn_oy" with
  | none => .error (.indexError "fn_oy")
  | some jn =>
  match firstIdx columns_names "total" with
  | none => .error (.indexError "total")
  | some jt =>
    match avAdd (rawColSum input_data jy) (rawColSum input_data jn),
          rawColSum input_data jt with
    | .tErr, _ => .ok none
    | _, .tErr => .ok none
    | .q a, .q b =>
        if b = 0 then .ok none else .ok (some (roundHalfUp (a / b) 5))
    | .nan, .q b =>
        if b = 0 then .ok none
        else .error (.valueError "cannot convert float NaN to integer")
    | _, .nan => .error (.valueError "cannot convert float NaN to integer")

/-- `calculate_acc` (statistics.py:44): `(sum fy_oy + sum fn_on) / sum total`
through `sum_column_data_by_name`; a `None` sum raises `TypeError`, a zero
denominator a warning — both caught, giving `None`. -/
def calculate_acc (input_data : List (List Val)) (columns_names : List String) :
    Except PyErr (Option ℚ) :=
  match sumColumnDataByName input_data columns_names "fy_oy",
        sumColumnDataByName input_data columns_names "fn_on",
        sumColumnDataByName input_data columns_names "total" with
  | some fy_oy, some fn_on, some total =>
    if total = 0 then .ok none
    else .ok (some (roundHalfUp ((fy_oy + fn_on) / total) 5))
  | _, _, _ => .ok none

/-- `calculate_pody` (statistics.py:126): `fy_oy / (fy_oy + fn_oy)`. -/
def calculate_pody (input_data : List (List Val)) (columns_names : List String) :
    Except PyErr (Option ℚ) :=
  match sumColumnDataByName input_data columns_names "fy_oy",
        sumColumnDataByName input_data columns_names "fn_oy" with
  | some fy_oy, some fn_oy =>
    if fy_oy + fn_oy = 0 then .ok none
    else .ok (some (roundHalfUp (fy_oy / (fy_oy + fn_oy)) 5))
  | _, _ => .ok none

/-- `calculate_pofd` (statistics.py:151): `fy_on / (fy_on + fn_on)`. -/
def calculate_pofd (input_data : List (List Val)) (columns_names : List String) :
    Except PyErr (Option ℚ) :=
  match sumColumnDataByName input_data columns_names "fy_on",
        sumColumnDataByName input_data columns_names "fn_on" with
  | some fy_on, some fn_on =>
    if fy_on + fn_on = 0 then .ok none
    else .ok (some (roundHalfUp (fy_on / (fy_on + fn_on)) 5))
  | _, _ => .ok none

/-- `calculate_hk` (statistics.py:283): calls `calculate_pody` and
`calculate_pofd`; `None` if either is `None`, otherwise their rounded
difference. -/
def calculate_hk (input_data : List (List Val)) (columns_names : List String) :
    Except PyErr (Option ℚ) :=
  match calculate_pody input_data columns_names,
        calculate_pofd input_data columns_names with
  | .ok (some pody), .ok (some pofd) => .ok (some (roundHalfUp (pody - pofd) 5))
  | .ok _, .ok _ => .ok none
  | .error e, _ => .error e
  | _, .error e => .error e

/-! ### agg_stat.py -/

/-- `AggStat.EXEMPTED_VARS` (agg_stat.py:78). -/
def EXEMPTED_VARS : List String := ["SSVAR_Spread", "SSVAR_RMSE"]

/-- `AggStat.STATISTIC_TO_FIELDS` (agg_stat.py:79). -/
def STATISTIC_TO_FIELDS : List (String × List String) :=
  [("baser", ["fy_oy", "fn_oy"]),
   ("acc", ["fy_oy", "fn_on"]),
   ("fbias", ["fy_oy", "fn_on", "fy_oy", "fy_on"]),
   ("fmean", ["fy_oy", "fy_on"]),
   ("pody", ["fy_oy", "fn_oy"]),
   ("pofd", ["fy_on", "fn_on"]),
   ("podn", ["fn_on", "fy_on"]),
   ("far", ["fy_on", "fy_oy"]),
   ("csi", ["fy_oy", "fy_on", "fn_oy"]),
   ("gss", ["fy_oy", "fy_on", "fn_oy"]),
   ("hk", ["fy_oy", "fn_oy", "fy_on", "fn_on"]),
   ("hss", ["fy_oy", "fn_oy", "fy_on", "fn_on"]),
   ("odds", ["fy_oy", "fn_oy", "fy_on", "fn_on"]),
   ("lodds", ["fy_oy", "fn_oy", "fy_on", "fn_on"]),
   ("baggs", ["fy_oy", "fn_oy", "fy_on"]),
   ("eclv", ["fy_oy", "fn_oy", "fy_on", "fn_on"]),
   ("fbar", ["fbar"]),
   ("obar", ["obar"]),
   ("fstdev", ["fbar", "ffbar"]),
   ("ostdev", ["obar", "oobar"]),
   ("fobar", ["fobar"]),
   ("ffbar", ["ffbar"]),
   ("oobar", ["oobar"]),
   ("mae", ["mae"]),
   ("mbias", ["obar", "fbar"]),
   ("corr", ["ffbar", "fbar", "oobar", "obar", "fobar"]),
   ("anom_corr", ["ffbar", "fbar", "oobar", "obar", "fobar"]),
   ("rmsfa", ["ffbar"]),
   ("rmsoa", ["oobar"]),
   ("me", ["fbar", "obar"]),
   ("me2", ["fbar", "obar"]),
   ("mse", ["ffbar", "oobar", "fobar"]),
   ("msess", ["ffbar", "oobar", "fobar", "obar"]),
   ("rmse", ["ffbar", "oobar", "fobar"]),
   ("estdev", ["ffbar", "oobar", "fobar", "fbar", "obar"]),
   ("bcmse", ["ffbar", "oobar", "fobar", "fbar", "obar"]),
   ("bcrmse", ["ffbar", "oobar", "fobar", "fbar", "obar"])]

/-- The statistic functions embedded here, keyed the way `_calc_stats`
looks them up in the module namespace: `globals()['calculate_' + stat]`.
A subset of the ~70 module-level functions of statistics.py suffices for
these claims; a name outside the table is an unknown statistic and raises
`KeyError`, exactly as a name outside `globals()` does. -/
def statRegistry :
    List (String × (List (List Val) → List String → Except PyErr (Option ℚ))) :=
  [("calculate_baser", calculate_baser),
   ("calculate_acc", calculate_acc),
   ("calculate_pody", calculate_pody),
   ("calculate_pofd", calculate_pofd),
   ("calculate_hk", calculate_hk)]

/-- The 2-D ("single value") or 3-D ("bootstrapped") numpy input of
`_calc_stats` (agg_stat.py:120). -/
inductive NDValues where
  | d2 : List (List Val) → NDValues
  | d3 : List (List (List Val)) → NDValues

/-- The per-block loop of `_calc_stats` over a 3-D tensor: one statistic
value per resample block, the first error propagating. -/
def statBlocks (f : List (List Val) → List String → Except PyErr (Option ℚ))
    (column_names : List String) :
    List (List (List Val)) → Except PyErr (List (Option ℚ))
  | [] => .ok []
  | b :: bs =>
    match f b column_names with
    | .error e => .error e
    | .ok v =>
      match statBlocks f column_names bs with
      | .error e => .error e
      | .ok vs => .ok (v :: vs)

/-- `AggStat._calc_stats` (agg_stat.py:120): look up
`calculate_<statistic>` and apply it to the 2-D table (one value) or to
each block of the 3-D tensor; `None` input raises `KeyError`.  The source
wraps each 3-D result in a singleton list; the wrapper is dropped here. -/
def calcStats (statistic : String) (column_names : List String) :
    Option NDValues → Except PyErr (List (Option ℚ))
  | some (.d2 values) =>
    match statRegistry.lookup ("calculate_" ++ statistic) with
    | none => .error (.keyError ("calculate_" ++ statistic))
    | some f =>
      match f values column_names with
      | .error e => .error e
      | .ok v => .ok [v]
  | some (.d3 values) =>
    match statRegistry.lookup ("calculate_" ++ statistic) with
    | none => .error (.keyError ("calculate_" ++ statistic))
    | some f => statBlocks f column_names values
  | none => .error (.keyError "cannot calculate statistic")

/-- Modelled from the spec: `BootstrapDistributionResults` lives in
`metcalcpy/bootstrap_custom.py`, which is not under `src/`.  Per the spec
(§3, Bootstrap Distribution Result) it holds a point value, a lower and an
upper confidence bound (each possibly `None`), and optionally the retained
original data matrix for later derived-series use. -/
structure BootstrapDistributionResults where
  lower_bound : Option ℚ
  value : Option ℚ
  upper_bound : Option ℚ
  values : Option (List (List Val))
deriving DecidableEq

/-- Modelled from the spec: `bootstrap_and_value` lives in
`metcalcpy/bootstrap_custom.py`, which is not under `src/`.  Per §4.3 it
applies the statistic function to the original table and to each
with-replacement resample (the resample index lists are passed explicitly
here so the model stays deterministic), and derives a point estimate from
the unresampled data plus a confidence interval; an exception raised by the
statistic function propagates to the caller; `save_data` retains the
original table.  Only the control flow is relied upon by the claims below;
the interval numerics are represented by the extremes of the resampled
statistics, standing in for the selectable CI method. -/
def bootstrapAndValue (data : List (List Val))
    (stat_func : Option NDValues → Except PyErr (List (Option ℚ)))
    (num_iterations : Nat) (num_threads : Int) (ci_method : String) (alpha : ℚ)
    (save_data : Bool) (resamples : List (List Nat)) :
    Except PyErr BootstrapDistributionResults :=
  match stat_func (some (.d2 data)) with
  | .error e => .error e
  | .ok orig =>
    match stat_func
        (some (.d3 (resamples.map (fun ix => ix.map (fun i => data.getD i []))))) with
    | .error e => .error e
    | .ok boots =>
      let qs := boots.filterMap id
      .ok ⟨qs.min?, orig.headD none, qs.max?,
           if save_data then some data else none⟩

/-- The recognized entries of the parameters dictionary (`self.params`). -/
structure Params where
  line_type : String
  num_iterations : Nat
  num_threads : Int
  method : String
  alpha : ℚ
  derived_series : List (List String)
  list_stat : PyObj
  indy_var : String
  indy_vals : List String

/-- Python-style total order on cells, used to embed `sort_values`: strings
compare as strings and numbers as numbers; the source raises on a
mixed-type column, embedded here as an arbitrary rank order. -/
def valRank : Val → Nat
  | .str _ => 0
  | .num _ => 1
  | .nan => 2

/-- Boolean less-or-equal on cells. -/
def valLe (x y : Val) : Bool :=
  match x, y with
  | .str a, .str b => decide (a ≤ b)
  | .num a, .num b => decide (a ≤ b)
  | _, _ => decide (valRank x ≤ valRank y)

/-- Lexicographic row comparison at the given column indices. -/
def lexLe (idxs : List Nat) (r1 r2 : List Val) : Bool :=
  match idxs with
  | [] => true
  | j :: rest =>
    let a := r1.getD j Val.nan
    let b := r2.getD j Val.nan
    if a = b then lexLe rest r1 r2 else valLe a b

/-- Insert into a sorted list. -/
def insertLe (le : α → α → Bool) (x : α) : List α → List α
  | [] => [x]
  | y :: ys => if le x y then x :: y :: ys else y :: insertLe le x ys

/-- Insertion sort by a boolean comparison (the source's
`sort_values(kind=quicksort)` leaves tie order unspecified; any sort is a
faithful embedding for the order-insensitive statistics). -/
def sortByLe (le : α → α → Bool) : List α → List α
  | [] => []
  | x :: xs => insertLe le x (sortByLe le xs)

/-- The indices of the named columns, `none` when one is missing. -/
def idxsOf (column_names : List String) : List String → Option (List Nat)
  | [] => some []
  | f :: fs =>
    match firstIdx column_names f, idxsOf column_names fs with
    | some j, some js => some (j :: js)
    | _, _ => none

/-- `_sort_data` (agg_stat.py:30): pick the temporal key present among the
four alternatives and sort by (temporal key, fcst_lead, stat_name); a
missing sort column raises `KeyError`. -/
def sortData (column_names : List String) (rows : List (List Val)) :
    Except PyErr (List (List Val)) :=
  let by_fields :=
    if column_names.contains "fcst_valid_beg" then
      ["fcst_valid_beg", "fcst_lead", "stat_name"]
    else if column_names.contains "fcst_valid" then
      ["fcst_valid", "fcst_lead", "stat_name"]
    else if column_names.contains "fcst_init_beg" then
      ["fcst_init_beg", "fcst_lead", "stat_name"]
    else
      ["fcst_init", "fcst_lead", "stat_name"]
  match idxsOf column_names by_fields with
  | none => .error (.keyError "sort_values")
  | some idxs => .ok (sortByLe (lexLe idxs) rows)

/-- Frame columns hold only numbers in the aggregate columns; multiplying
anything else would raise in the source and does not occur in the claims. -/
def mulVal : Val → Val → Val
  | .num a, .num b => .num (a * b)
  | _, _ => .nan

/-- One row of `data_for_prepare[column] = data_for_prepare[column].values *
data_for_prepare['total'].values`: the cell at index `j` becomes its product
with the cell at index `t`. -/
def stepRow (j t : Nat) (r : List Val) : List Val :=
  r.set j (mulVal (r.getD j Val.nan) (r.getD t Val.nan))

/-- The whole-column assignment of `_prepare_sl1l2_data` for the column at
index `j` with the total column at index `t`. -/
def updateColumnTimesTotal (j t : Nat) (rows : List (List Val)) :
    List (List Val) :=
  rows.map (stepRow j t)

/-- The composite per-row effect of the `_prepare_sl1l2_data` loop. -/
def prepRowFold (cols : List String) (fields : List String) (r : List Val) :
    List Val :=
  fields.foldl (fun s c =>
    stepRow ((firstIdx cols c).getD 0) ((firstIdx cols "total").getD 0) s) r

/-- One row of the pre-scaling described by the spec sentence behind claim
C1, written directly: every cell whose column name is listed in `fields` is
multiplied by the cell of the total column (at index `t`); every other cell
is untouched. -/
def scaledRow (fields : List String) (cols : List String) (t : Nat)
    (r : List Val) : List Val :=
  (List.range r.length).map (fun j =>
    if cols.getD j "" ∈ fields then mulVal (r.getD j Val.nan) (r.getD t Val.nan)
    else r.getD j Val.nan)

/-- The spec-described pre-scaling of a whole table (comparison definition
for the amended claim C1). -/
def scaledRowsSpec (fields : List String) (cols : List String)
    (rows : List (List Val)) : List (List Val) :=
  match firstIdx cols "total" with
  | none => rows
  | some t => rows.map (scaledRow fields cols t)

/-- The per-column loop of `_prepare_sl1l2_data`. -/
def prepLoop (cols : List String) (fields : List String)
    (rows : List (List Val)) : Except PyErr (List (List Val)) :=
  match fields with
  | [] => .ok rows
  | column :: rest =>
    match firstIdx cols column with
    | none => .error (.keyError column)
    | some j =>
      match firstIdx cols "total" with
      | none => .error (.keyError "total")
      | some t => prepLoop cols rest (updateColumnTimesTotal j t rows)

/-- `AggStat._prepare_sl1l2_data` (agg_stat.py:218): for each column listed
in `STATISTIC_TO_FIELDS[statistic]`, in order, multiply it by the `total`
column; a missing dictionary key or frame column raises `KeyError`. -/
def prepareSl1l2Data (statistic : String) (cols : List String)
    (rows : List (List Val)) : Except PyErr (List (List Val)) :=
  match STATISTIC_TO_FIELDS.lookup statistic with
  | none => .error (.keyError statistic)
  | some fields => prepLoop cols fields rows

/-- `AggStat._prepare_ctc_data` (agg_stat.py:229): the body is empty
("Nothing needs to be done"), so the data is returned unchanged. -/
def prepareCtcData (statistic : String) (cols : List String)
    (rows : List (List Val)) : Except PyErr (List (List Val)) :=
  .ok rows

/-- `getattr(self, '_prepare_{}_data'.format(line_type))` (agg_stat.py:396):
dispatch on the line type; an unknown line type raises `AttributeError`. -/
def prepareData (line_type statistic : String) (cols : List String)
    (rows : List (List Val)) : Except PyErr (List (List Val)) :=
  if line_type = "sl1l2" then prepareSl1l2Data statistic cols rows
  else if line_type = "ctc" then prepareCtcData statistic cols rows
  else .error (.attributeError ("_prepare_" ++ line_type ++ "_data"))

/-- `AggStat._get_bootstrapped_stats` (agg_stat.py:373): empty data gives an
all-`None` result; otherwise sort, run the line-type prepare step once,
then either compute the statistic directly (`num_iterations == 1`, bounds
`None`, original data retained when derived series are configured) or call
`bootstrap_and_value`, catching only `KeyError`. -/
def getBootstrappedStats (params : Params) (statistic : String)
    (column_names : List String) (series_rows : List (List Val))
    (resamples : List (List Nat)) : Except PyErr BootstrapDistributionResults :=
  if series_rows.isEmpty then
    .ok ⟨none, none, none, none⟩
  else
    let has_derived_series := !params.derived_series.isEmpty
    match sortData column_names series_rows with
    | .error e => .error e
    | .ok sorted =>
      match prepareData params.line_type statistic column_names sorted with
      | .error e => .error e
      | .ok data =>
        if params.num_iterations = 1 then
          match calcStats statistic column_names (some (.d2 data)) with
          | .error e => .error e
          | .ok stat_vals =>
            match stat_vals with
            | [] => .error (.indexError "stat_values")
            | stat_val :: _ =>
              .ok ⟨none, stat_val, none,
                   if has_derived_series then some data else none⟩
        else
          match bootstrapAndValue data (calcStats statistic column_names)
              params.num_iterations params.num_threads params.method
              params.alpha has_derived_series resamples with
          | .error (.keyError _) => .ok ⟨none, none, none, none⟩
          | .error e => .error e
          | .ok results => .ok results

/-- `AggStat._validate_series_cases_for_derived_operation` (agg_stat.py:429):
project each row to its (temporal key, fcst_lead, stat_name) triplet, count
the distinct triplets, and raise `NameError` when the row count differs
from the distinct count — unless `self.params['list_stat']` is a member of
`EXEMPTED_VARS` (note the source compares the whole `list_stat` parameter,
a list, against the string entries of `EXEMPTED_VARS`).  A missing index
column raises `IndexError` (`np.where(...)[0][0]`). -/
def validateSeriesCasesForDerivedOperation (params : Params)
    (column_names : List String) (series_data : List (List Val)) :
    Except PyErr Unit :=
  match firstIdx column_names "fcst_lead" with
  | none => .error (.indexError "fcst_lead")
  | some fcst_lead_index =>
  match firstIdx column_names "stat_name" with
  | none => .error (.indexError "stat_name")
  | some stat_name_index =>
  match (if column_names.contains "fcst_valid_beg" then
           firstIdx column_names "fcst_valid_beg"
         else if column_names.contains "fcst_valid" then
           firstIdx column_names "fcst_valid"
         else if column_names.contains "fcst_init_beg" then
           firstIdx column_names "fcst_init_beg"
         else firstIdx column_names "fcst_init") with
  | none => .error (.indexError "fcst_valid")
  | some fcst_valid_ind =>
    let date_lead_stat := series_data.map (fun r =>
      [r.getD fcst_valid_ind Val.nan, r.getD fcst_lead_index Val.nan,
       r.getD stat_name_index Val.nan])
    let unique_date_size := date_lead_stat.dedup.length
    if series_data.length ≠ unique_date_size ∧
        pyMem params.list_stat EXEMPTED_VARS = false then
      .error (.nameError
        "Derived curve cannot be calculated. Multiple values for one valid date/fcst_lead")
    else .ok ()

/-- Modelled from the spec: `intersection` lives in
`metcalcpy/util/utils.py`, which is not under `src/`; list intersection,
keeping the order of the first list. -/
def intersectionList (a b : List String) : List String :=
  a.filter (fun x => b.contains x)

/-- Modelled from the spec: `get_derived_curve_name` lives in
`metcalcpy/util/utils.py`, which is not under `src/`; per §3 the derived
series name "is synthesized from the operator and the two component
descriptions". -/
def getDerivedCurveName (derived_serie : List String) : String :=
  derived_serie.getLastD "" ++ "(" ++ derived_serie.getD 0 "" ++ "-" ++
    derived_serie.getD 1 "" ++ ")"

/-- Set a key of an insertion-ordered dictionary (update in place when the
key exists, append otherwise), value type `Option (List String)`. -/
def dictSetOpt (d : List (String × Option (List String))) (k : String)
    (v : Option (List String)) : List (String × Option (List String)) :=
  if d.any (fun p => p.1 = k) then
    d.map (fun p => if p.1 = k then (k, v) else p)
  else d ++ [(k, v)]

/-- Look up a key of such a dictionary. -/
def dictGetOpt (d : List (String × Option (List String))) (k : String) :
    Option (Option (List String)) :=
  (d.find? (fun p => p.1 = k)).map (fun p => p.2)

/-- The body of the loop of `AggStat._get_derived_series` (agg_stat.py:512)
for one derived-series spec `[component1, component2, operator]`: copy
`series_val` with the last series variable cleared, intersect every other
variable's values with the first component's tokens (the source's guard
compares `intersection(...)` with itself, a tautology, so the assignment is
unconditional whenever the value is not `None`), install the synthesized
curve name, the independent values and the statistic name, and take the
cartesian product of the values. -/
def processDerivedSerie (series_val : List (String × List String))
    (indy_var : String) (indy_vals : List String) (derived_serie : List String) :
    List (List String) :=
  let series_var := (series_val.map (fun p => p.1)).getLastD ""
  let derived_val : List (String × Option (List String)) :=
    dictSetOpt (series_val.map (fun p => (p.1, some p.2))) series_var none
  let ds_1 := splitChar (Char.ofNat 32) (derived_serie.getD 0 "")
  let derived_val := series_val.foldl (fun dv p =>
    match dictGetOpt dv p.1 with
    | some (some cur) => dictSetOpt dv p.1 (some (intersectionList cur ds_1))
    | _ => dv) derived_val
  let ds_2 := splitChar (Char.ofNat 32) (derived_serie.getD 1 "")
  let derived_curve_name := getDerivedCurveName derived_serie
  let derived_val := dictSetOpt derived_val series_var (some [derived_curve_name])
  let derived_val := dictSetOpt derived_val indy_var (some indy_vals)
  let stat_entry :=
    if ds_1.getLastD "" = ds_2.getLastD "" then [ds_1.getLastD ""]
    else [ds_1.getLastD "" ++ "," ++ ds_2.getLastD ""]
  let derived_val := dictSetOpt derived_val "stat_name" (some stat_entry)
  listProduct (derived_val.map (fun p => p.2.getD []))

/-- `AggStat._get_derived_series` (agg_stat.py:501): the `for` loop over
`self.params['derived_series']` ends its first iteration with an
unconditional `return`, so only the first spec is processed; when the list
is empty the loop never runs and the function returns `None`. -/
def getDerivedSeries (params : Params)
    (series_val : List (String × List String)) (indy_vals : List String) :
    Option (List (List String)) :=
  match params.derived_series with
  | [] => none
  | derived_serie :: _ =>
    some (processDerivedSerie series_val params.indy_var indy_vals derived_serie)

/-! ### event_equalize.py -/

/-- A data-frame row for event equalization: an association list from
column name to (string) cell value; the equalize key is built from string
renderings, so string cells suffice for the claims about this module. -/
abbrev EERow := List (String × String)

/-- Column lookup in a row (columns are unique in a pandas frame; the
first binding wins). -/
def lookupD : EERow → String → String
  | [], _ => ""
  | p :: t, k => if p.1 = k then p.2 else lookupD t k

/-- Column assignment in a row: overwrite in place, or append the new
column. -/
def setVal : EERow → String → String → EERow
  | [], k, v => [(k, v)]
  | p :: t, k, v => if p.1 = k then (k, v) :: t else p :: setVal t k v

/-- A data frame for event equalization. -/
structure EFrame where
  cols : List String
  rows : List EERow
deriving DecidableEq

/-- The arguments of `event_equalize` (event_equalize.py:15). -/
structure EEConfig where
  indy_var : String
  indy_vals : List String
  series_var_vals : List (String × List String)
  fix_vars : List String
  fix_vals_permuted : List (List String)
  equalize_by_indep : Bool
  multi : Bool

/-- `exception_columns` (event_equalize.py:48). -/
def exceptionColumns : List String :=
  ["fcst_valid_beg", "fcst_lead", "fcst_valid", "fcst_init", "fcst_init_beg"]

/-- The per-row `equalize` assignment (event_equalize.py:52-62): the key is
the temporal value plus the lead time; the independent value is appended
only when `equalize_by_indep` holds AND `not indy_var` holds AND the name
is not an exception column — note the source's `not indy_var`, which is
true only for an empty variable name. -/
def mkEqualizeRow (column_names : List String) (cfg : EEConfig) (r : EERow) :
    EERow :=
  let r1 :=
    if column_names.contains "fcst_valid_beg" then
      setVal r "equalize"
        (lookupD r "fcst_valid_beg" ++ " " ++ lookupD r "fcst_lead")
    else if column_names.contains "fcst_valid" then
      setVal r "equalize"
        (lookupD r "fcst_valid" ++ " " ++ lookupD r "fcst_lead")
    else r
  if cfg.equalize_by_indep && (cfg.indy_var == "") &&
      !(exceptionColumns.contains cfg.indy_var) then
    setVal r1 "equalize"
      (lookupD r1 "equalize" ++ " " ++ lookupD r1 cfg.indy_var)
  else r1

/-- Insert into the `vars_for_ee` ordered dictionary. -/
def dictInsert (d : List (String × List String)) (k : String)
    (v : List String) : List (String × List String) :=
  if d.any (fun p => p.1 = k) then
    d.map (fun p => if p.1 = k then (k, v) else p)
  else d ++ [(k, v)]

/-- `vars_for_ee` (event_equalize.py:64-85): the series variables with
their comma-ungrouped values, then the fixed variables with their values,
exception columns skipped in both. -/
def varsForEE (cfg : EEConfig) : List (String × List String) :=
  let step1 := cfg.series_var_vals.foldl (fun acc p =>
    if exceptionColumns.contains p.1 then acc
    else dictInsert acc p.1 (p.2.flatMap (fun v => splitChar (Char.ofNat 44) v))) []
  (cfg.fix_vars.zip cfg.fix_vals_permuted).foldl (fun acc p =>
    if exceptionColumns.contains p.1 then acc
    else dictInsert acc p.1 p.2) step1

/-- The `equalize` value of a row. -/
def eqVal (r : EERow) : String := lookupD r "equalize"

/-- Does a row match one permutation of the EE variables?  The permutation
values come from configuration strings, for which `represents_int` is
false, so the comparison is plain string equality. -/
def rowMatches (keys : List String) (perm : List String) (r : EERow) : Bool :=
  (keys.zip perm).all (fun p => lookupD r p.1 == p.2)

/-- `permutation_data['equalize']` for one permutation: the (possibly
repetitive) list of equalize keys of the matching rows. -/
def caseList (keys : List String) (perm : List String) (rows : List EERow) :
    List String :=
  (rows.filter (rowMatches keys perm)).map eqVal

/-- The running `equalization_cases` after all permutations
(event_equalize.py:90-134): initialized from the first permutation, then
intersected (via `isin`) with every further permutation's case list. -/
def survivors (keys : List String) (perms : List (List String))
    (rows : List EERow) : List String :=
  match perms with
  | [] => []
  | p :: rest =>
    rest.foldl (fun acc q => acc.filter (fun c => (caseList keys q rows).contains c))
      (caseList keys p rows)

/-- Did the source assign an `equalize` column at all? -/
def eeAssigns (cols : List String) (cfg : EEConfig) : Bool :=
  cols.contains "fcst_valid_beg" || cols.contains "fcst_valid" ||
    (cfg.equalize_by_indep && (cfg.indy_var == "") &&
      !(exceptionColumns.contains cfg.indy_var))

/-- The frame columns after the `equalize` assignment. -/
def eeCols (cols : List String) (cfg : EEConfig) : List String :=
  if eeAssigns cols cfg && !(cols.contains "equalize") then cols ++ ["equalize"]
  else cols

/-- The frame rows after the `equalize` assignment. -/
def eeRows1 (df : EFrame) (cfg : EEConfig) : List EERow :=
  df.rows.map (mkEqualizeRow df.cols cfg)

/-- The EE variable names, in dictionary order. -/
def eeKeys (cfg : EEConfig) : List String := (varsForEE cfg).map (fun p => p.1)

/-- `vars_for_ee_permuted` (event_equalize.py:88). -/
def eePerms (cfg : EEConfig) : List (List String) :=
  listProduct ((varsForEE cfg).map (fun p => p.2))

/-- The retained rows (event_equalize.py:136-139): those whose equalize key
is in the final surviving case list. -/
def eeKept (df : EFrame) (cfg : EEConfig) : List EERow :=
  (eeRows1 df cfg).filter (fun r =>
    (survivors (eeKeys cfg) (eePerms cfg) (eeRows1 df cfg)).contains (eqVal r))

/-- `event_equalize` (event_equalize.py:15): returns the pair (post-state
of the argument frame, filtered frame).  The first component records the
in-place mutation the source performs on the caller's frame (the `equalize`
column assignment); the second is the returned `series_data_ee`. -/
def eventEqualize (df : EFrame) (cfg : EEConfig) : EFrame × EFrame :=
  (⟨eeCols df.cols cfg, eeRows1 df cfg⟩, ⟨eeCols df.cols cfg, eeKept df cfg⟩)

/-! ## Supporting lemmas -/

theorem roundHalfUp_intCast_div (k : ℤ) :
    roundHalfUp ((k : ℚ) / 100000) 5 = (k : ℚ) / 100000 := by
  unfold roundHalfUp
  have h5 : ((10 : ℚ) ^ (5 : ℕ)) = 100000 := by norm_num
  rw [h5]
  have h1 : (k : ℚ) / 100000 * 100000 + 1 / 2 = (k : ℚ) + 1 / 2 := by
    congr 1
    field_simp
  rw [h1]
  have h2 : Int.floor ((k : ℚ) + 1 / 2) = k := by
    rw [add_comm, Int.floor_add_int]
    norm_num
  rw [h2]

theorem roundHalfUp_image (x : ℚ) :
    ∃ n : ℤ, roundHalfUp x 5 = (n : ℚ) / 100000 := by
  refine ⟨Int.floor (x * 100000 + 1 / 2), ?_⟩
  unfold roundHalfUp
  norm_num

theorem roundHalfUp_sub_exact (a b : ℚ)
    (ha : ∃ m : ℤ, a = (m : ℚ) / 100000) (hb : ∃ n : ℤ, b = (n : ℚ) / 100000) :
    roundHalfUp (a - b) 5 = a - b := by
  obtain ⟨m, rfl⟩ := ha
  obtain ⟨n, rfl⟩ := hb
  have h : (m : ℚ) / 100000 - (n : ℚ) / 100000 = ((m - n : ℤ) : ℚ) / 100000 := by
    push_cast
    ring
  rw [h, roundHalfUp_intCast_div]

theorem calculate_pody_isOk (d : List (List Val)) (c : List String) :
    ∃ o, calculate_pody d c = Except.ok o := by
  unfold calculate_pody
  split <;> (try split) <;> exact ⟨_, rfl⟩

theorem calculate_pofd_isOk (d : List (List Val)) (c : List String) :
    ∃ o, calculate_pofd d c = Except.ok o := by
  unfold calculate_pofd
  split <;> (try split) <;> exact ⟨_, rfl⟩

theorem calculate_pody_image (d : List (List Val)) (c : List String) (p : ℚ)
    (h : calculate_pody d c = Except.ok (some p)) :
    ∃ n : ℤ, p = (n : ℚ) / 100000 := by
  unfold calculate_pody at h
  split at h
  · split at h
    · simp at h
    · simp only [Except.ok.injEq, Option.some.injEq] at h
      obtain ⟨n, hn⟩ := roundHalfUp_image (_ / _)
      exact ⟨n, by rw [← h, hn]⟩
  · simp at h

theorem calculate_pofd_image (d : List (List Val)) (c : List String) (p : ℚ)
    (h : calculate_pofd d c = Except.ok (some p)) :
    ∃ n : ℤ, p = (n : ℚ) / 100000 := by
  unfold calculate_pofd at h
  split at h
  · split at h
    · simp at h
    · simp only [Except.ok.injEq, Option.some.injEq] at h
      obtain ⟨n, hn⟩ := roundHalfUp_image (_ / _)
      exact ⟨n, by rw [← h, hn]⟩
  · simp at h

/-! ## Claim C6 -/

/-- Claim C6: for every 2-D input table and column-name array,
`calculate_hk` equals `calculate_pody` minus `calculate_pofd` whenever both
are defined, and is `None` whenever either constituent is `None`. -/
theorem hk_is_pody_minus_pofd (input_data : List (List Val))
    (columns_names : List String) :
    (∀ p f, calculate_pody input_data columns_names = Except.ok (some p) →
      calculate_pofd input_data columns_names = Except.ok (some f) →
      calculate_hk input_data columns_names = Except.ok (some (p - f))) ∧
    ((calculate_pody input_data columns_names = Except.ok none ∨
      calculate_pofd input_data columns_names = Except.ok none) →
      calculate_hk input_data columns_names = Except.ok none) := by
  constructor
  · intro p f hp hf
    have hip := calculate_pody_image input_data columns_names p hp
    have hif := calculate_pofd_image input_data columns_names f hf
    unfold calculate_hk
    rw [hp, hf]
    simp only [Except.ok.injEq, Option.some.injEq]
    exact roundHalfUp_sub_exact p f hip hif
  · intro h
    obtain ⟨o1, ho1⟩ := calculate_pody_isOk input_data columns_names
    obtain ⟨o2, ho2⟩ := calculate_pofd_isOk input_data columns_names
    unfold calculate_hk
    rw [ho1, ho2]
    rcases h with h | h
    · rw [ho1] at h
      have : o1 = none := Except.ok.inj h
      subst this
      cases o2 <;> rfl
    · rw [ho2] at h
      have : o2 = none := Except.ok.inj h
      subst this
      cases o1 <;> rfl

/-- Witness for C6 at a concrete contingency table: PODY = 4/5,
POFD = 2/5, HK = 4/5 - 2/5. -/
theorem hk_is_pody_minus_pofd_witness :
    calculate_hk [[Val.num 40, Val.num 10, Val.num 20, Val.num 30]]
      ["fy_oy", "fn_oy", "fy_on", "fn_on"] = Except.ok (some ((4 : ℚ) / 5 - 2 / 5)) :=
  (hk_is_pody_minus_pofd [[Val.num 40, Val.num 10, Val.num 20, Val.num 30]]
      ["fy_oy", "fn_oy", "fy_on", "fn_on"]).1 (4 / 5) (2 / 5)
    (by
      simp [calculate_pody, sumColumnDataByName, firstIdx, sliceColumn,
        convColumn, floatOfVal, roundHalfUp]
      norm_num)
    (by
      simp [calculate_pofd, sumColumnDataByName, firstIdx, sliceColumn,
        convColumn, floatOfVal, roundHalfUp]
      norm_num)

/-! ## Claim C8 -/

/-- Claim C8 (code_bug evidence): on a table whose required `fy_oy` column
contains a NaN, `calculate_baser` does not return `None` — the NaN reaches
`round_half_up` and escapes as an uncaught `ValueError` — while the
statistics routed through `sum_column_data_by_name` (here `calculate_acc`
and `calculate_pody`) return `None` as the claim and the docstrings state. -/
theorem baser_nan_not_none :
    calculate_baser [[Val.nan, Val.num 1, Val.num 2]] ["fy_oy", "fn_oy", "total"] =
      Except.error (.valueError "cannot convert float NaN to integer") ∧
    calculate_acc [[Val.nan, Val.num 1, Val.num 2]] ["fy_oy", "fn_on", "total"] =
      Except.ok none ∧
    calculate_pody [[Val.nan, Val.num 1, Val.num 2]] ["fy_oy", "fn_oy", "total"] =
      Except.ok none := by
  refine ⟨?_, by decide, by decide⟩
  simp [calculate_baser, firstIdx, rawColSum, avAddVal, avAdd]

/-! ## Claim C3 -/

/-- Claim C3 (code_bug evidence): two rows sharing the same
(fcst_valid, fcst_lead, stat_name) triplet for the exempted statistic
`SSVAR_RMSE` still raise the duplicate-case error, because the source
compares the whole `list_stat` parameter (a list) against the string
entries of `EXEMPTED_VARS`; only an (unrealistic) bare-string `list_stat`
would be exempted. -/
theorem exemption_never_applies_duplicates_raise :
    validateSeriesCasesForDerivedOperation
        ⟨"ctc", 1, 1, "perc", 0, [], .listv ["SSVAR_RMSE"], "", []⟩
        ["fcst_valid", "fcst_lead", "stat_name"]
        [[Val.str "20111010_000000", Val.num 120000, Val.str "SSVAR_RMSE"],
         [Val.str "20111010_000000", Val.num 120000, Val.str "SSVAR_RMSE"]] =
      Except.error (.nameError
        "Derived curve cannot be calculated. Multiple values for one valid date/fcst_lead") ∧
    validateSeriesCasesForDerivedOperation
        ⟨"ctc", 1, 1, "perc", 0, [], .str "SSVAR_RMSE", "", []⟩
        ["fcst_valid", "fcst_lead", "stat_name"]
        [[Val.str "20111010_000000", Val.num 120000, Val.str "SSVAR_RMSE"],
         [Val.str "20111010_000000", Val.num 120000, Val.str "SSVAR_RMSE"]] =
      Except.ok () := by
  constructor <;> decide

/-! ## Claim C4 -/

/-- Claim C4 (code_bug evidence): with two configured derived-series specs,
the series resolver returns the synthetic tuples of the first spec only —
the `return` of `_get_derived_series` sits inside the `for` loop — so the
second spec contributes nothing. -/
theorem only_first_derived_spec_returned :
    getDerivedSeries
        ⟨"ctc", 1, 1, "perc", 0,
         [["A FBAR", "B FBAR", "DIFF"], ["A OBAR", "B OBAR", "RATIO"]],
         .listv ["FBAR"], "fcst_lead", ["12"]⟩
        [("model", ["A", "B"])] ["12"] =
      some [["DIFF(A FBAR-B FBAR)", "12", "FBAR"]] := by
  decide

/-! ## Claim C2 -/

/-- Claim C2 (code_bug evidence): with `equalize_by_indep = True` and a
nonempty independent variable (`vx_mask`) that is not an exception column,
the equalize key of every row is only `temporal key + " " + lead` — the
independent value `CONUS` is never appended, because the source guards the
append with `not indy_var`, which can hold only for an empty variable
name. -/
theorem indy_never_included_in_case_key :
    (eventEqualize
        ⟨["fcst_valid_beg", "fcst_lead", "vx_mask", "model"],
         [[("fcst_valid_beg", "20111010_000000"), ("fcst_lead", "12"),
           ("vx_mask", "CONUS"), ("model", "A")]]⟩
        ⟨"vx_mask", ["CONUS", "EAST"], [("model", ["A"])], [], [], true, false⟩).1.rows =
      [[("fcst_valid_beg", "20111010_000000"), ("fcst_lead", "12"),
        ("vx_mask", "CONUS"), ("model", "A"),
        ("equalize", "20111010_000000 12")]] ∧
    "20111010_000000 12" ≠ "20111010_000000 12 CONUS" := by
  constructor <;> decide

/-! ## Claim C5 -/

/-- Claim C5 (counterexample): with `num_iterations = 1` an unknown
statistic name makes `_get_bootstrapped_stats` raise `KeyError` out of the
call — the `try/except KeyError` guards only the `bootstrap_and_value`
branch — so the failure is not recorded as an all-`None` result. -/
theorem lookup_failure_propagates_when_single_iteration :
    getBootstrappedStats ⟨"ctc", 1, 1, "perc", 0, [], .listv [], "", []⟩
        "no_such_stat" ["fcst_valid", "fcst_lead", "stat_name"]
        [[Val.str "2020", Val.num 12, Val.str "X"]] [] =
      Except.error (.keyError "calculate_no_such_stat") := by
  decide

/-- Claim C5 amended: when `num_iterations` is not 1 (the bootstrapping
branch), an unknown statistic raises `KeyError` inside
`bootstrap_and_value`, which `_get_bootstrapped_stats` catches and turns
into a result with point value and both bounds `None`. -/
theorem lookup_failure_caught_when_bootstrapping (params : Params)
    (statistic : String) (column_names : List String)
    (series_rows sorted prepped : List (List Val)) (resamples : List (List Nat))
    (hn : params.num_iterations ≠ 1)
    (hlook : (statRegistry.lookup ("calculate_" ++ statistic)).isNone = true)
    (hsort : sortData column_names series_rows = Except.ok sorted)
    (hprep : prepareData params.line_type statistic column_names sorted =
      Except.ok prepped) :
    getBootstrappedStats params statistic column_names series_rows resamples =
      Except.ok ⟨none, none, none, none⟩ := by
  have hl : statRegistry.lookup ("calculate_" ++ statistic) = none :=
    Option.isNone_iff_eq_none.mp hlook
  unfold getBootstrappedStats
  cases he : series_rows.isEmpty
  · simp only [he, Bool.false_eq_true, if_false]
    rw [hsort]
    dsimp only
    rw [hprep]
    dsimp only
    rw [if_neg hn]
    unfold bootstrapAndValue calcStats
    rw [hl]
  · rfl

/-- Witness for the amended C5 at `num_iterations = 2` with a one-row
table. -/
theorem lookup_failure_caught_when_bootstrapping_witness :
    getBootstrappedStats ⟨"ctc", 2, 1, "perc", 0, [], .listv [], "", []⟩
        "no_such_stat" ["fcst_valid", "fcst_lead", "stat_name"]
        [[Val.str "2020", Val.num 12, Val.str "X"]] [] =
      Except.ok ⟨none, none, none, none⟩ :=
  lookup_failure_caught_when_bootstrapping
    ⟨"ctc", 2, 1, "perc", 0, [], .listv [], "", []⟩ "no_such_stat"
    ["fcst_valid", "fcst_lead", "stat_name"]
    [[Val.str "2020", Val.num 12, Val.str "X"]]
    [[Val.str "2020", Val.num 12, Val.str "X"]]
    [[Val.str "2020", Val.num 12, Val.str "X"]] []
    (by decide) (by decide) (by decide) (by decide)

/-! ## Claim C7 -/

/-- Claim C7: for a non-empty series table with `num_iterations = 1`, the
bootstrap estimation returns both confidence bounds `None` and the point
value obtained by applying the statistic function directly to the sorted
and prepared table — `bootstrap_and_value` is never invoked, so no
resampling happens — and the prepared table is retained exactly when
derived series are configured. -/
theorem single_iteration_no_resampling (params : Params) (statistic : String)
    (column_names : List String) (series_rows sorted prepped : List (List Val))
    (resamples : List (List Nat))
    (f : List (List Val) → List String → Except PyErr (Option ℚ)) (v : Option ℚ)
    (h1 : params.num_iterations = 1)
    (hne : series_rows.isEmpty = false)
    (hsort : sortData column_names series_rows = Except.ok sorted)
    (hprep : prepareData params.line_type statistic column_names sorted =
      Except.ok prepped)
    (hf : statRegistry.lookup ("calculate_" ++ statistic) = some f)
    (hv : f prepped column_names = Except.ok v) :
    getBootstrappedStats params statistic column_names series_rows resamples =
      Except.ok ⟨none, v, none,
        if params.derived_series.isEmpty then none else some prepped⟩ := by
  unfold getBootstrappedStats
  simp only [hne, Bool.false_eq_true, if_false]
  rw [hsort]
  dsimp only
  rw [hprep]
  dsimp only
  rw [if_pos h1]
  unfold calcStats
  rw [hf]
  dsimp only
  rw [hv]
  dsimp only
  cases hd : params.derived_series.isEmpty <;> simp [hd]

/-- Witness for C7: a two-row contingency table sorted by date, statistic
PODY computed once on the full table, bounds `None`. -/
theorem single_iteration_no_resampling_witness :
    getBootstrappedStats ⟨"ctc", 1, 1, "perc", 0, [], .listv ["PODY"], "", []⟩
        "pody" ["fcst_valid", "fcst_lead", "stat_name", "fy_oy", "fn_oy"]
        [[Val.str "2020b", Val.num 12, Val.str "PODY", Val.num 30, Val.num 10],
         [Val.str "2020a", Val.num 12, Val.str "PODY", Val.num 10, Val.num 0]] [] =
      Except.ok ⟨none, some ((4 : ℚ) / 5), none, none⟩ := by
  have h := single_iteration_no_resampling
    ⟨"ctc", 1, 1, "perc", 0, [], .listv ["PODY"], "", []⟩ "pody"
    ["fcst_valid", "fcst_lead", "stat_name", "fy_oy", "fn_oy"]
    [[Val.str "2020b", Val.num 12, Val.str "PODY", Val.num 30, Val.num 10],
     [Val.str "2020a", Val.num 12, Val.str "PODY", Val.num 10, Val.num 0]]
    [[Val.str "2020a", Val.num 12, Val.str "PODY", Val.num 10, Val.num 0],
     [Val.str "2020b", Val.num 12, Val.str "PODY", Val.num 30, Val.num 10]]
    [[Val.str "2020a", Val.num 12, Val.str "PODY", Val.num 10, Val.num 0],
     [Val.str "2020b", Val.num 12, Val.str "PODY", Val.num 30, Val.num 10]]
    [] calculate_pody (some ((4 : ℚ) / 5)) (by decide) (by decide)
    (by simp +decide [sortData, idxsOf, firstIdx, sortByLe, insertLe, lexLe,
      valLe, valRank])
    (by decide) rfl
    (by
      simp [calculate_pody, sumColumnDataByName, firstIdx, sliceColumn,
        convColumn, floatOfVal, roundHalfUp]
      norm_num)
  simpa using h

/-! ## Claim C1 -/

theorem firstIdx_spec (cols : List String) (c : String) :
    ∀ j, firstIdx cols c = some j → j < cols.length ∧ cols.getD j "" = c := by
  induction cols with
  | nil => intro j h; simp [firstIdx] at h
  | cons x xs ih =>
    intro j h
    unfold firstIdx at h
    by_cases hx : x = c
    · rw [if_pos hx] at h
      have hj : j = 0 := by
        have := Option.some.inj h
        omega
      subst hj
      exact ⟨Nat.succ_pos _, hx⟩
    · rw [if_neg hx] at h
      cases hfx : firstIdx xs c with
      | none => rw [hfx] at h; simp at h
      | some j2 =>
        rw [hfx] at h
        simp at h
        subst h
        obtain ⟨h1, h2⟩ := ih j2 hfx
        exact ⟨Nat.succ_lt_succ h1, h2⟩

theorem firstIdx_of_mem (cols : List String) (c : String) (h : c ∈ cols) :
    ∃ j, firstIdx cols c = some j := by
  induction cols with
  | nil => simp at h
  | cons x xs ih =>
    unfold firstIdx
    by_cases hx : x = c
    · exact ⟨0, by rw [if_pos hx]⟩
    · have hm : c ∈ xs := by
        rcases List.mem_cons.mp h with h1 | h1
        · exact absurd h1.symm hx
        · exact h1
      obtain ⟨j, hj⟩ := ih hm
      exact ⟨j + 1, by rw [if_neg hx, hj]; rfl⟩

theorem getD_mem_of_lt {α : Type} (l : List α) :
    ∀ (k : Nat) (d : α), k < l.length → l.getD k d ∈ l := by
  induction l with
  | nil => intro k d h; simp at h
  | cons x t ih =>
    intro k d h
    cases k with
    | zero => exact List.mem_cons_self x t
    | succ m => exact List.mem_cons_of_mem x (ih m d (by simpa using h))

theorem firstIdx_unique (cols : List String) (hcnd : cols.Nodup) (c : String) :
    ∀ j j2, firstIdx cols c = some j → j2 < cols.length →
      cols.getD j2 "" = c → j2 = j := by
  induction cols with
  | nil => intro j j2 h; simp [firstIdx] at h
  | cons x xs ih =>
    intro j j2 h hj2 hg
    have hnd2 := List.nodup_cons.mp hcnd
    unfold firstIdx at h
    by_cases hx : x = c
    · rw [if_pos hx] at h
      have hj : j = 0 := by
        have := Option.some.inj h
        omega
      subst hj
      cases j2 with
      | zero => rfl
      | succ k =>
        exfalso
        have hk : k < xs.length := by simpa using hj2
        have hgx : xs.getD k "" = x := by rw [hx]; exact hg
        have : x ∈ xs := hgx ▸ getD_mem_of_lt xs k "" hk
        exact hnd2.1 this
    · rw [if_neg hx] at h
      cases hfx : firstIdx xs c with
      | none => rw [hfx] at h; simp at h
      | some jp =>
        rw [hfx] at h
        simp at h
        subst h
        cases j2 with
        | zero => exact absurd hg hx
        | succ k =>
          have hk : k < xs.length := by simpa using hj2
          rw [ih hnd2.2 jp k hfx hk hg]

theorem getD_set_eq {α : Type} (r : List α) :
    ∀ (j : Nat) (v d : α), j < r.length → (r.set j v).getD j d = v := by
  induction r with
  | nil => intro j v d h; simp at h
  | cons x t ih =>
    intro j v d h
    cases j with
    | zero => rfl
    | succ k => exact ih k v d (by simpa using h)

theorem getD_set_ne {α : Type} (r : List α) :
    ∀ (j j2 : Nat) (v d : α), j ≠ j2 → (r.set j v).getD j2 d = r.getD j2 d := by
  induction r with
  | nil => intro j j2 v d _; simp
  | cons x t ih =>
    intro j j2 v d h
    cases j with
    | zero =>
      cases j2 with
      | zero => exact absurd rfl h
      | succ k => rfl
    | succ m =>
      cases j2 with
      | zero => rfl
      | succ k => exact ih m k v d (by omega)

theorem getD_range_map {α : Type} (d : α) (l : List α) :
    (List.range l.length).map (fun j => l.getD j d) = l := by
  induction l with
  | nil => rfl
  | cons x t ih =>
    have hr : List.range (x :: t).length =
        0 :: (List.range t.length).map Nat.succ := by
      simpa using List.range_succ_eq_map t.length
    rw [hr]
    simp only [List.map_cons, List.map_map]
    rw [show ((fun j => (x :: t).getD j d) ∘ Nat.succ) =
      (fun j => t.getD j d) from funext (fun j => rfl), ih]
    rfl

theorem prepLoop_eq_map (cols : List String) (fields : List String) :
    ∀ rows, (∀ c ∈ fields, ∃ j, firstIdx cols c = some j) →
      (∃ t, firstIdx cols "total" = some t) →
      prepLoop cols fields rows = Except.ok (rows.map (prepRowFold cols fields)) := by
  induction fields with
  | nil =>
    intro rows _ _
    unfold prepLoop prepRowFold
    simp
  | cons c rest ih =>
    intro rows hsub ht
    obtain ⟨j, hj⟩ := hsub c (List.mem_cons_self c rest)
    obtain ⟨t, htt⟩ := ht
    unfold prepLoop
    rw [hj]
    dsimp only
    rw [htt]
    dsimp only
    rw [ih (updateColumnTimesTotal j t rows)
      (fun c2 hc2 => hsub c2 (List.mem_cons_of_mem _ hc2)) ⟨t, htt⟩]
    congr 1
    unfold updateColumnTimesTotal
    rw [List.map_map]
    apply List.map_congr_left
    intro r _
    show prepRowFold cols rest (stepRow j t r) = prepRowFold cols (c :: rest) r
    unfold prepRowFold
    rw [List.foldl_cons]
    congr 1
    rw [hj, htt]
    rfl

theorem scaledRow_nil (cols : List String) (t : Nat) (r : List Val) :
    scaledRow [] cols t r = r := by
  unfold scaledRow
  rw [show (fun j => if cols.getD j "" ∈ ([] : List String) then
      mulVal (r.getD j Val.nan) (r.getD t Val.nan) else r.getD j Val.nan) =
      (fun j => r.getD j Val.nan) from funext (fun j => by simp)]
  exact getD_range_map Val.nan r

theorem scaledRow_step (cols : List String) (hcnd : cols.Nodup)
    (t jc : Nat) (htt : firstIdx cols "total" = some t)
    (c : String) (hj : firstIdx cols c = some jc) (hct : c ≠ "total")
    (rest : List String) (hcr : c ∉ rest)
    (r : List Val) (hr : r.length = cols.length) :
    scaledRow rest cols t (stepRow jc t r) = scaledRow (c :: rest) cols t r := by
  obtain ⟨hjlt, hjg⟩ := firstIdx_spec cols c jc hj
  obtain ⟨htlt, htg⟩ := firstIdx_spec cols "total" t htt
  have hjt : jc ≠ t := fun he => hct (by rw [← hjg, he, htg])
  have hlen : (stepRow jc t r).length = r.length := by
    unfold stepRow
    exact List.length_set r jc _
  unfold scaledRow
  rw [hlen]
  apply List.map_congr_left
  intro i hi
  have hilt : i < r.length := List.mem_range.mp hi
  have hgt : (stepRow jc t r).getD t Val.nan = r.getD t Val.nan := by
    unfold stepRow
    exact getD_set_ne r jc t _ Val.nan hjt
  by_cases hm : cols.getD i "" ∈ rest
  · have hic : cols.getD i "" ≠ c := fun he => hcr (he ▸ hm)
    have hij : i ≠ jc := fun he => hic (he ▸ hjg)
    have hgi : (stepRow jc t r).getD i Val.nan = r.getD i Val.nan := by
      unfold stepRow
      exact getD_set_ne r jc i _ Val.nan (fun he => hij he.symm)
    rw [if_pos hm, if_pos (List.mem_cons_of_mem c hm), hgi, hgt]
  · rw [if_neg hm]
    by_cases hij : i = jc
    · subst hij
      have hgi : (stepRow i t r).getD i Val.nan =
          mulVal (r.getD i Val.nan) (r.getD t Val.nan) := by
        unfold stepRow
        exact getD_set_eq r i _ Val.nan hilt
      rw [hgi, if_pos (by rw [hjg]; exact List.mem_cons_self c rest)]
    · have hic : cols.getD i "" ≠ c := by
        intro he
        exact hij (firstIdx_unique cols hcnd c jc i hj (hr ▸ hilt) he)
      have hgi : (stepRow jc t r).getD i Val.nan = r.getD i Val.nan := by
        unfold stepRow
        exact getD_set_ne r jc i _ Val.nan (fun he => hij he.symm)
      rw [hgi, if_neg (by
        intro hmem
        rcases List.mem_cons.mp hmem with h1 | h1
        · exact hic h1
        · exact hm h1)]

theorem prepRowFold_eq_scaledRow (cols : List String) (hcnd : cols.Nodup)
    (t : Nat) (htt : firstIdx cols "total" = some t) :
    ∀ (fields : List String), fields.Nodup → "total" ∉ fields →
      (∀ c ∈ fields, c ∈ cols) →
      ∀ (r : List Val), r.length = cols.length →
        prepRowFold cols fields r = scaledRow fields cols t r := by
  intro fields
  induction fields with
  | nil =>
    intro _ _ _ r _
    rw [scaledRow_nil]
    rfl
  | cons c rest ih =>
    intro hnd hnt hsub r hr
    obtain ⟨jc, hj⟩ := firstIdx_of_mem cols c (hsub c (List.mem_cons_self c rest))
    have hnd2 := List.nodup_cons.mp hnd
    have hct : c ≠ "total" := fun he => hnt (he ▸ List.mem_cons_self c rest)
    have hstep : prepRowFold cols (c :: rest) r =
        prepRowFold cols rest (stepRow jc t r) := by
      unfold prepRowFold
      rw [List.foldl_cons]
      congr 1
      rw [hj, htt]
      rfl
    rw [hstep]
    have hlen : (stepRow jc t r).length = cols.length := by
      unfold stepRow
      rw [List.length_set]
      exact hr
    rw [ih hnd2.2 (fun he => hnt (List.mem_cons_of_mem c he))
      (fun c2 hc2 => hsub c2 (List.mem_cons_of_mem c hc2)) (stepRow jc t r) hlen]
    exact scaledRow_step cols hcnd t jc htt c hj hct rest hnd2.1 r hr

/-- Claim C1 (counterexample): on a concrete contingency table the ctc
prepare step leaves the data unchanged and it is the sl1l2 prepare step
that multiplies the aggregate columns by `total`, the opposite of the
claim. -/
theorem prepare_scaling_claim_counterexample :
    prepareData "ctc" "baser" ["fy_oy", "fn_oy", "total"]
        [[Val.num 50, Val.num 10, Val.num 100]] =
      Except.ok [[Val.num 50, Val.num 10, Val.num 100]] ∧
    prepareData "sl1l2" "baser" ["fy_oy", "fn_oy", "total"]
        [[Val.num 50, Val.num 10, Val.num 100]] =
      Except.ok [[Val.num 5000, Val.num 1000, Val.num 100]] ∧
    [[Val.num 50, Val.num 10, Val.num 100]] ≠
      [[Val.num 5000, Val.num 1000, Val.num 100]] := by
  refine ⟨by decide, ?_, by decide⟩
  simp [prepareData, prepareSl1l2Data, prepLoop, STATISTIC_TO_FIELDS, firstIdx,
    updateColumnTimesTotal, stepRow, mulVal]
  norm_num

/-- Claim C1 amended: the prepare function selected by line type scales
exactly the error-based (sl1l2) data — every column listed for the
statistic is multiplied, row by row, by that row's `total` — and leaves
contingency-table (ctc) data unchanged.  (The field list must be free of
repetitions; the `fbias` entry, which lists `fy_oy` twice and is therefore
scaled twice, is the one exception in the table.) -/
theorem prepare_scaling_amended (statistic : String) (fields : List String)
    (cols : List String) (rows : List (List Val))
    (hf : STATISTIC_TO_FIELDS.lookup statistic = some fields)
    (hnd : fields.Nodup) (hnt : "total" ∉ fields)
    (hsub : ∀ c ∈ fields, c ∈ cols) (htc : "total" ∈ cols)
    (hcnd : cols.Nodup)
    (hrect : ∀ r ∈ rows, r.length = cols.length) :
    prepareSl1l2Data statistic cols rows =
      Except.ok (scaledRowsSpec fields cols rows) ∧
    prepareCtcData statistic cols rows = Except.ok rows := by
  constructor
  · obtain ⟨t, htt⟩ := firstIdx_of_mem cols "total" htc
    unfold prepareSl1l2Data
    rw [hf]
    dsimp only
    rw [prepLoop_eq_map cols fields rows
      (fun c hc => firstIdx_of_mem cols c (hsub c hc)) ⟨t, htt⟩]
    unfold scaledRowsSpec
    rw [htt]
    congr 1
    apply List.map_congr_left
    intro r hrm
    exact prepRowFold_eq_scaledRow cols hcnd t htt fields hnd hnt hsub r
      (hrect r hrm)
  · rfl

/-- Witness for the amended C1 at the sl1l2 statistic `fbar`. -/
theorem prepare_scaling_amended_witness :
    prepareSl1l2Data "fbar" ["fbar", "total"] [[Val.num 3, Val.num 2]] =
      Except.ok (scaledRowsSpec ["fbar"] ["fbar", "total"]
        [[Val.num 3, Val.num 2]]) ∧
    prepareCtcData "fbar" ["fbar", "total"] [[Val.num 3, Val.num 2]] =
      Except.ok [[Val.num 3, Val.num 2]] :=
  prepare_scaling_amended "fbar" ["fbar"] ["fbar", "total"]
    [[Val.num 3, Val.num 2]] (by decide) (by decide) (by decide) (by decide)
    (by decide) (by decide) (by decide)

/-! ## Claim C9 -/

theorem lookupD_nil (k : String) : lookupD [] k = "" := rfl

theorem lookupD_cons (p : String × String) (t : EERow) (k : String) :
    lookupD (p :: t) k = if p.1 = k then p.2 else lookupD t k := rfl

theorem setVal_nil (k v : String) : setVal [] k v = [(k, v)] := rfl

theorem setVal_cons (p : String × String) (t : EERow) (k v : String) :
    setVal (p :: t) k v = if p.1 = k then (k, v) :: t else p :: setVal t k v := rfl

theorem lookupD_setVal_self (r : EERow) (k v : String) :
    lookupD (setVal r k v) k = v := by
  induction r with
  | nil => simp [setVal_nil, lookupD_cons]
  | cons p t ih =>
    rw [setVal_cons]
    by_cases h : p.1 = k
    · rw [if_pos h, lookupD_cons, if_pos rfl]
    · rw [if_neg h, lookupD_cons, if_neg h, ih]

theorem lookupD_setVal_ne (r : EERow) (k v k2 : String) (h : k2 ≠ k) :
    lookupD (setVal r k v) k2 = lookupD r k2 := by
  induction r with
  | nil =>
    rw [setVal_nil, lookupD_cons, if_neg (fun he : k = k2 => h he.symm)]
  | cons p t ih =>
    rw [setVal_cons]
    by_cases hp : p.1 = k
    · rw [if_pos hp, lookupD_cons, lookupD_cons,
        if_neg (fun he : k = k2 => h he.symm), if_neg (hp ▸ fun he => h he.symm)]
    · rw [if_neg hp, lookupD_cons, lookupD_cons, ih]

theorem setVal_setVal_same (r : EERow) (k v w : String) :
    setVal (setVal r k v) k w = setVal r k w := by
  induction r with
  | nil => rw [setVal_nil, setVal_cons, if_pos rfl, setVal_nil]
  | cons p t ih =>
    rw [setVal_cons, setVal_cons]
    by_cases hp : p.1 = k
    · rw [if_pos hp, if_pos hp, setVal_cons, if_pos rfl]
    · rw [if_neg hp, if_neg hp, setVal_cons, if_neg hp, ih]

theorem mkEqualizeRow_stable (cols cols2 : List String) (cfg : EEConfig)
    (r : EERow)
    (h1 : cols2.contains "fcst_valid_beg" = cols.contains "fcst_valid_beg")
    (h2 : cols2.contains "fcst_valid" = cols.contains "fcst_valid")
    (ht : cols.contains "fcst_valid_beg" = true ∨
      cols.contains "fcst_valid" = true) :
    mkEqualizeRow cols2 cfg (mkEqualizeRow cols cfg r) = mkEqualizeRow cols cfg r := by
  by_cases hA : cols.contains "fcst_valid_beg" = true
  · have hAm : "fcst_valid_beg" ∈ cols := by simpa using hA
    have hAm2 : "fcst_valid_beg" ∈ cols2 := by simpa using h1.trans hA
    cases hcn : (cfg.equalize_by_indep && (cfg.indy_var == "") &&
        !(exceptionColumns.contains cfg.indy_var)) with
    | false =>
      have hcnP : ¬((cfg.equalize_by_indep = true ∧ cfg.indy_var = "") ∧
          cfg.indy_var ∉ exceptionColumns) := by simpa using hcn
      simp +decide [mkEqualizeRow, hAm, hAm2, hcnP, lookupD_setVal_ne,
        lookupD_setVal_self, setVal_setVal_same]
    | true =>
      have hcnP : (cfg.equalize_by_indep = true ∧ cfg.indy_var = "") ∧
          cfg.indy_var ∉ exceptionColumns := by simpa using hcn
      have hind : cfg.indy_var = "" := hcnP.1.2
      simp +decide [mkEqualizeRow, hAm, hAm2, hcnP, hind, lookupD_setVal_ne,
        lookupD_setVal_self, setVal_setVal_same]
  · have hA2 : cols.contains "fcst_valid_beg" = false := by
      revert hA
      cases cols.contains "fcst_valid_beg" <;> simp
    have hB : cols.contains "fcst_valid" = true := ht.resolve_left hA
    have hAm : "fcst_valid_beg" ∉ cols := by simpa using hA2
    have hAm2 : "fcst_valid_beg" ∉ cols2 := by simpa using h1.trans hA2
    have hBm : "fcst_valid" ∈ cols := by simpa using hB
    have hBm2 : "fcst_valid" ∈ cols2 := by simpa using h2.trans hB
    cases hcn : (cfg.equalize_by_indep && (cfg.indy_var == "") &&
        !(exceptionColumns.contains cfg.indy_var)) with
    | false =>
      have hcnP : ¬((cfg.equalize_by_indep = true ∧ cfg.indy_var = "") ∧
          cfg.indy_var ∉ exceptionColumns) := by simpa using hcn
      simp +decide [mkEqualizeRow, hAm, hAm2, hBm, hBm2, hcnP, lookupD_setVal_ne,
        lookupD_setVal_self, setVal_setVal_same]
    | true =>
      have hcnP : (cfg.equalize_by_indep = true ∧ cfg.indy_var = "") ∧
          cfg.indy_var ∉ exceptionColumns := by simpa using hcn
      have hind : cfg.indy_var = "" := hcnP.1.2
      simp +decide [mkEqualizeRow, hAm, hAm2, hBm, hBm2, hcnP, hind,
        lookupD_setVal_ne, lookupD_setVal_self, setVal_setVal_same]

theorem bool_eq_of_iff {a b : Bool} (h : a = true ↔ b = true) : a = b := by
  cases a <;> cases b <;> simp_all

theorem contains_append_equalize (l : List String) (x : String)
    (hx : x ≠ "equalize") : (l ++ ["equalize"]).contains x = l.contains x := by
  apply bool_eq_of_iff
  simp [hx]

theorem eeCols_contains (cols : List String) (cfg : EEConfig) (x : String)
    (hx : x ≠ "equalize") : (eeCols cols cfg).contains x = cols.contains x := by
  unfold eeCols
  split
  · exact contains_append_equalize cols x hx
  · rfl

theorem mem_foldl_filter (g : List String → List String)
    (qs : List (List String)) (c : String) :
    ∀ acc : List String,
      (c ∈ qs.foldl (fun a q => a.filter (fun x => (g q).contains x)) acc ↔
        c ∈ acc ∧ ∀ q ∈ qs, c ∈ g q) := by
  induction qs with
  | nil => intro acc; simp
  | cons q rest ih =>
    intro acc
    rw [List.foldl_cons, ih]
    simp only [List.mem_filter, List.forall_mem_cons]
    constructor
    · rintro ⟨⟨ha, hq⟩, hrest⟩
      exact ⟨ha, by simpa using hq, hrest⟩
    · rintro ⟨ha, hq, hrest⟩
      exact ⟨⟨ha, by simpa using hq⟩, hrest⟩

theorem mem_survivors_cons (keys : List String) (p : List String)
    (rest : List (List String)) (rows : List EERow) (c : String) :
    c ∈ survivors keys (p :: rest) rows ↔
      c ∈ caseList keys p rows ∧ ∀ q ∈ rest, c ∈ caseList keys q rows := by
  unfold survivors
  exact mem_foldl_filter (fun q => caseList keys q rows) rest c
    (caseList keys p rows)

theorem mem_caseList_filter (keys perm : List String) (rows : List EERow)
    (surv : List String) (c : String) :
    c ∈ caseList keys perm (rows.filter (fun r => surv.contains (eqVal r))) ↔
      c ∈ caseList keys perm rows ∧ c ∈ surv := by
  unfold caseList
  constructor
  · intro h
    obtain ⟨r, hr, hrc⟩ := List.mem_map.mp h
    have hrf := List.mem_filter.mp hr
    have hrf2 := List.mem_filter.mp hrf.1
    refine ⟨List.mem_map.mpr ⟨r, List.mem_filter.mpr ⟨hrf2.1, hrf.2⟩, hrc⟩, ?_⟩
    have hc := hrf2.2
    rw [hrc] at hc
    simpa using hc
  · rintro ⟨h1, h2⟩
    obtain ⟨r, hr, hrc⟩ := List.mem_map.mp h1
    have hrf := List.mem_filter.mp hr
    refine List.mem_map.mpr ⟨r, List.mem_filter.mpr
      ⟨List.mem_filter.mpr ⟨hrf.1, ?_⟩, hrf.2⟩, hrc⟩
    rw [hrc]
    simpa using h2

/-- Claim C9: event equalization is idempotent — running `event_equalize`
on its own output (same configuration) returns exactly the same rows.  The
hypothesis is the data-model invariant that the frame carries one of the
two temporal keys the source keys the equalize column on. -/
theorem event_equalize_idempotent (df : EFrame) (cfg : EEConfig)
    (ht : df.cols.contains "fcst_valid_beg" = true ∨
      df.cols.contains "fcst_valid" = true) :
    (eventEqualize (eventEqualize df cfg).2 cfg).2.rows =
      (eventEqualize df cfg).2.rows := by
  show (eventEqualize ⟨eeCols df.cols cfg, eeKept df cfg⟩ cfg).2.rows =
    eeKept df cfg
  have hstable : ∀ r ∈ eeKept df cfg, mkEqualizeRow (eeCols df.cols cfg) cfg r = r := by
    intro r hr
    have hr1 : r ∈ eeRows1 df cfg := (List.mem_filter.mp hr).1
    obtain ⟨r0, _, hr0⟩ := List.mem_map.mp hr1
    rw [← hr0]
    exact mkEqualizeRow_stable df.cols (eeCols df.cols cfg) cfg r0
      (eeCols_contains df.cols cfg _ (by decide))
      (eeCols_contains df.cols cfg _ (by decide)) ht
  have hrows1 : eeRows1 ⟨eeCols df.cols cfg, eeKept df cfg⟩ cfg = eeKept df cfg := by
    unfold eeRows1
    calc (eeKept df cfg).map (mkEqualizeRow (eeCols df.cols cfg) cfg)
        = (eeKept df cfg).map id := List.map_congr_left hstable
      _ = eeKept df cfg := List.map_id _
  show eeKept ⟨eeCols df.cols cfg, eeKept df cfg⟩ cfg = eeKept df cfg
  have hkept : eeKept df cfg = (eeRows1 df cfg).filter (fun s =>
      (survivors (eeKeys cfg) (eePerms cfg) (eeRows1 df cfg)).contains (eqVal s)) := rfl
  have houter : eeKept ⟨eeCols df.cols cfg, eeKept df cfg⟩ cfg =
      (eeKept df cfg).filter (fun r =>
        (survivors (eeKeys cfg) (eePerms cfg) (eeKept df cfg)).contains (eqVal r)) := by
    calc eeKept ⟨eeCols df.cols cfg, eeKept df cfg⟩ cfg
        = (eeRows1 ⟨eeCols df.cols cfg, eeKept df cfg⟩ cfg).filter (fun r =>
            (survivors (eeKeys cfg) (eePerms cfg)
              (eeRows1 ⟨eeCols df.cols cfg, eeKept df cfg⟩ cfg)).contains (eqVal r)) := rfl
      _ = (eeKept df cfg).filter (fun r =>
            (survivors (eeKeys cfg) (eePerms cfg) (eeKept df cfg)).contains (eqVal r)) := by
          rw [hrows1]
  rw [houter]
  apply List.filter_eq_self.mpr
  intro r hr
  have hmem := List.mem_filter.mp (hkept ▸ hr)
  rw [hkept]
  cases hp : eePerms cfg with
  | nil =>
    rw [hp] at hmem
    simp [survivors] at hmem
  | cons p rest =>
    rw [hp] at hmem
    have hc : eqVal r ∈ survivors (eeKeys cfg) (p :: rest) (eeRows1 df cfg) := by
      simpa using hmem.2
    rw [mem_survivors_cons] at hc
    have hgoal : eqVal r ∈ survivors (eeKeys cfg) (p :: rest)
        ((eeRows1 df cfg).filter (fun s =>
          (survivors (eeKeys cfg) (p :: rest) (eeRows1 df cfg)).contains (eqVal s))) := by
      rw [mem_survivors_cons]
      refine ⟨(mem_caseList_filter _ _ _ _ _).mpr ⟨hc.1, by simpa using hmem.2⟩, ?_⟩
      intro q hq
      exact (mem_caseList_filter _ _ _ _ _).mpr ⟨hc.2 q hq, by simpa using hmem.2⟩
    simpa using hgoal

/-- Witness for C9 on a concrete three-row frame where one case is
discarded. -/
theorem event_equalize_idempotent_witness :
    (eventEqualize (eventEqualize
        ⟨["fcst_valid_beg", "fcst_lead", "model"],
         [[("fcst_valid_beg", "20111010"), ("fcst_lead", "12"), ("model", "A")],
          [("fcst_valid_beg", "20111010"), ("fcst_lead", "12"), ("model", "B")],
          [("fcst_valid_beg", "20111011"), ("fcst_lead", "12"), ("model", "A")]]⟩
        ⟨"fcst_lead", ["12"], [("model", ["A", "B"])], [], [], true, false⟩).2
      ⟨"fcst_lead", ["12"], [("model", ["A", "B"])], [], [], true, false⟩).2.rows =
    (eventEqualize
        ⟨["fcst_valid_beg", "fcst_lead", "model"],
         [[("fcst_valid_beg", "20111010"), ("fcst_lead", "12"), ("model", "A")],
          [("fcst_valid_beg", "20111010"), ("fcst_lead", "12"), ("model", "B")],
          [("fcst_valid_beg", "20111011"), ("fcst_lead", "12"), ("model", "A")]]⟩
        ⟨"fcst_lead", ["12"], [("model", ["A", "B"])], [], [], true, false⟩).2.rows :=
  event_equalize_idempotent
    ⟨["fcst_valid_beg", "fcst_lead", "model"],
     [[("fcst_valid_beg", "20111010"), ("fcst_lead", "12"), ("model", "A")],
      [("fcst_valid_beg", "20111010"), ("fcst_lead", "12"), ("model", "B")],
      [("fcst_valid_beg", "20111011"), ("fcst_lead", "12"), ("model", "A")]]⟩
    ⟨"fcst_lead", ["12"], [("model", ["A", "B"])], [], [], true, false⟩
    (Or.inl (by decide))

/-! ## Claim C10 -/

/-- Claim C10: `event_equalize` mutates the caller's frame in place
(embedded as the first, post-state component): when the temporal key
`fcst_valid_beg` is present, no `equalize` column exists yet and the
independent-variable name is nonempty, the post-state of the argument frame
carries a new `equalize` column — the concatenated temporal key and
lead-time string on every row — appended after the original columns, and
the returned equalized frame carries the same extra column. -/
theorem event_equalize_adds_equalize_column (df : EFrame) (cfg : EEConfig)
    (h1 : df.cols.contains "fcst_valid_beg" = true)
    (h2 : df.cols.contains "equalize" = false)
    (h3 : (cfg.indy_var == "") = false) :
    (eventEqualize df cfg).1.cols = df.cols ++ ["equalize"] ∧
    (eventEqualize df cfg).1.rows = df.rows.map (fun r =>
      setVal r "equalize"
        (lookupD r "fcst_valid_beg" ++ " " ++ lookupD r "fcst_lead")) ∧
    (eventEqualize df cfg).2.cols = df.cols ++ ["equalize"] := by
  have hm : "fcst_valid_beg" ∈ df.cols := by simpa using h1
  refine ⟨?_, ?_, ?_⟩
  · show eeCols df.cols cfg = df.cols ++ ["equalize"]
    unfold eeCols eeAssigns
    rw [h1, h2]
    rfl
  · show eeRows1 df cfg = _
    unfold eeRows1
    apply List.map_congr_left
    intro r _
    unfold mkEqualizeRow
    simp [hm, h3]
  · show eeCols df.cols cfg = df.cols ++ ["equalize"]
    unfold eeCols eeAssigns
    rw [h1, h2]
    rfl

/-- Witness for C10 on a concrete two-column frame. -/
theorem event_equalize_adds_equalize_column_witness :
    (eventEqualize ⟨["fcst_valid_beg", "fcst_lead"],
        [[("fcst_valid_beg", "20111010"), ("fcst_lead", "12")]]⟩
      ⟨"fcst_lead", ["12"], [], [], [], true, false⟩).1.cols =
      ["fcst_valid_beg", "fcst_lead"] ++ ["equalize"] ∧
    (eventEqualize ⟨["fcst_valid_beg", "fcst_lead"],
        [[("fcst_valid_beg", "20111010"), ("fcst_lead", "12")]]⟩
      ⟨"fcst_lead", ["12"], [], [], [], true, false⟩).1.rows =
      [[("fcst_valid_beg", "20111010"), ("fcst_lead", "12")]].map (fun r =>
        setVal r "equalize"
          (lookupD r "fcst_valid_beg" ++ " " ++ lookupD r "fcst_lead")) ∧
    (eventEqualize ⟨["fcst_valid_beg", "fcst_lead"],
        [[("fcst_valid_beg", "20111010"), ("fcst_lead", "12")]]⟩
      ⟨"fcst_lead", ["12"], [], [], [], true, false⟩).2.cols =
      ["fcst_valid_beg", "fcst_lead"] ++ ["equalize"] :=
  event_equalize_adds_equalize_column
    ⟨["fcst_valid_beg", "fcst_lead"],
     [[("fcst_valid_beg", "20111010"), ("fcst_lead", "12")]]⟩
    ⟨"fcst_lead", ["12"], [], [], [], true, false⟩
    (by decide) (by decide) (by decide)

end Met
